import Mathlib

/-!
Shallow embedding of `tasks.py` from the Shapez2-Blueprints repository: the
git-status parser, the iteration ledger, the version counter, the release
workflow loop of the `version_and_commit` task and the warehouse bootstrap
(`initialize_warehouse`), together with proofs of the specification claims.

Modelling conventions:
* JSON payloads are the `Json` inductive below, covering the fragment this
  script reads and writes (strings, integers, objects).
* Python dicts are insertion-ordered association lists; `dictGet` / `dictSet`
  model `d.get(k)` and `d[k] = v` (replace in place, else append).
* `pathlib.Path` values are kept as their string form; `pathName`,
  `pathStem` and `pathSuffix` implement pathlib's `name` / `stem` / `suffix`
  formulas (`rfind` of a dot in the final component).  The normalisation the
  `Path` constructor performs is not modelled: the porcelain paths this tool
  consumes are already in normal form, and no claim depends on it.
* Python exceptions (`ValueError`, `TypeError`, `KeyError`, `invoke.Exit`)
  are modelled with `Except String`.
* Console output (`secho`, `style`, the confirmation text) carries no state
  and is ignored; the interactive `prompt` / `confirm` calls are an `Oracle`
  of answers indexed by the loop position, where `none` models a user abort
  (`click.Abort`).
* The ledger appears twice, because Python dataclasses do no runtime type
  checking: `BlueprintIterationModel` / `Iteration` / `update` / `releaseLoop`
  carry the well-typed values this system itself writes, while
  `BlueprintIterationModelDyn` / `IterationDyn` / `updateDyn` /
  `releaseLoopDyn` / `version_and_commitDyn` carry arbitrary field values, so
  that a hand-written ledger whose `iteration` is a string reproduces
  Python's mid-loop `TypeError` (after the ledger file was truncated, before
  the version write) instead of failing at load time.
-/

/-- JSON values, restricted to the fragment `tasks.py` reads and writes. -/
inductive Json where
  | str (s : String)
  | int (n : Int)
  | obj (members : List (String × Json))

/-- Python `d.get(k)` on an insertion-ordered dict (association list). -/
def dictGet {β : Type} : List (String × β) → String → Option β
  | [], _ => none
  | p :: rest, k => if p.1 = k then some p.2 else dictGet rest k

/-- Python `d[k] = v`: replace the value at an existing key keeping its
position, otherwise append the new binding at the end. -/
def dictSet {β : Type} : List (String × β) → String → β → List (String × β)
  | [], k, v => [(k, v)]
  | p :: rest, k, v => if p.1 = k then (k, v) :: rest else p :: dictSet rest k v

/-- The characters Python's `str.strip()` removes. -/
def pyIsSpace (c : Char) : Bool :=
  c = ' ' || c = '\t' || c = '\n' || c = '\x0d' || c = '\x0b' || c = '\x0c'

/-- Strip characters satisfying `f` from both ends, like Python `str.strip`. -/
def pyStrip (f : Char → Bool) (s : String) : String :=
  String.mk (((s.toList.dropWhile f).reverse.dropWhile f).reverse)

/-- Python slice `s[:n]` (slices count code points). -/
def pyTakeChars (s : String) (n : Nat) : String := String.mk (s.toList.take n)

/-- Python slice `s[n:]`. -/
def pyDropChars (s : String) (n : Nat) : String := String.mk (s.toList.drop n)

/-- Does `seps` occur as a prefix of `l`? -/
def charsHavePre : List Char → List Char → Bool
  | [], _ => true
  | _ :: _, [] => false
  | c :: cs, d :: ds => c == d && charsHavePre cs ds

/-- Fuel-driven worker for Python `str.split(sep)` (non-empty `sep`). -/
def pySplitGo (sep : List Char) : Nat → List Char → List Char → List (List Char)
  | 0, l, acc => [acc.reverse ++ l]
  | _ + 1, [], acc => [acc.reverse]
  | fuel + 1, c :: rest, acc =>
    if charsHavePre sep (c :: rest) then
      acc.reverse :: pySplitGo sep fuel ((c :: rest).drop sep.length) []
    else
      pySplitGo sep fuel rest (c :: acc)

/-- Python `s.split(sep)` for a non-empty separator. -/
def pySplit (sep : String) (s : String) : List String :=
  if sep.toList.isEmpty then [s]
  else (pySplitGo sep.toList (s.toList.length + 1) s.toList []).map String.mk

/-- Python `s.splitlines()` for newline-separated text. -/
def pySplitlines (s : String) : List String :=
  if s.toList.isEmpty then []
  else
    let parts := pySplit "\n" s
    if parts.getLastD "x" = "" then parts.dropLast else parts

/-- Index of the last dot in a string, like Python `name.rfind(".")`. -/
def lastDotIdx (s : String) : Option Nat :=
  match s.toList.reverse.findIdx? (fun c => c = '.') with
  | some j => some (s.toList.length - 1 - j)
  | none => none

/-- pathlib `Path.name`: the final `/`-separated component. -/
def pathName (p : String) : String := (pySplit "/" p).getLastD ""

/-- pathlib `Path.suffix`: the last extension of the final component, empty
when the last dot is at the very start or very end of the name. -/
def pathSuffix (p : String) : String :=
  let name := pathName p
  match lastDotIdx name with
  | some i => if 0 < i ∧ i < name.toList.length - 1 then pyDropChars name i else ""
  | none => ""

/-- pathlib `Path.stem`: the final component without `pathSuffix`. -/
def pathStem (p : String) : String :=
  let name := pathName p
  match lastDotIdx name with
  | some i => if 0 < i ∧ i < name.toList.length - 1 then pyTakeChars name i else name
  | none => name

/-- Python `str(x)` on the scalar JSON values interpolated into commands. -/
def jsonPyStr : Json → String
  | .str s => s
  | .int n => toString n
  | .obj _ => "<dict repr not modelled>"

/-- `BLUEPRINT_EXTENSION = ".spz2bp"`. -/
def BLUEPRINT_EXTENSION : String := ".spz2bp"

/-- `FIRST_ITERATION_NUMBER = 1`. -/
def FIRST_ITERATION_NUMBER : Int := 1

/-- `ITERATION_FILE = Path('iteration.json')`, kept as its string form. -/
def ITERATION_FILE : String := "iteration.json"

/-- `VERSION_FILE = Path('version.json')`, kept as its string form. -/
def VERSION_FILE : String := "version.json"

/-- The `GitStatus` enum. -/
inductive GitStatus where
  | ADDED
  | DELETED
  | MODIFIED
  | RENAME
  | UNTRACKED
deriving DecidableEq

/-- The enum member's `value` string. -/
def GitStatus.value : GitStatus → String
  | .ADDED => "A"
  | .DELETED => "D"
  | .MODIFIED => "M"
  | .RENAME => "R"
  | .UNTRACKED => "??"

/-- Enum lookup `GitStatus(code)`: the unique member with that value, or
`none` (Python raises `ValueError` then). -/
def GitStatus.fromValue (s : String) : Option GitStatus :=
  if s = "A" then some .ADDED
  else if s = "D" then some .DELETED
  else if s = "M" then some .MODIFIED
  else if s = "R" then some .RENAME
  else if s = "??" then some .UNTRACKED
  else none

/-- The `message` property: the commit-verb dispatch table, which covers all
five enum values. -/
def GitStatus.message : GitStatus → String
  | .ADDED => "Add"
  | .DELETED => "Delete"
  | .MODIFIED => "Update"
  | .RENAME => "Move|Rename"
  | .UNTRACKED => "Add"

/-- The `GitFileStatus` dataclass: one parsed status line. -/
structure GitFileStatus where
  path : String
  status : GitStatus
deriving DecidableEq

/-- `GitFileStatus.message`: `f"{self.status.message} {self.path.stem}"`. -/
def GitFileStatus.message (g : GitFileStatus) : String :=
  s!"{g.status.message} {pathStem g.path}"

/-- `GitFileStatus.isBlueprintFile`: suffix equals the blueprint extension. -/
def GitFileStatus.isBlueprintFile (g : GitFileStatus) : Bool :=
  pathSuffix g.path == BLUEPRINT_EXTENSION

/-- The `Version` dataclass.  The field is dynamically typed in Python (the
annotation `version: str` is not enforced), so it holds a `Json` scalar. -/
structure Version where
  version : Json

/-- `asdict` on `Version`. -/
def Version.asdict (v : Version) : Json := .obj [("version", v.version)]

/-- `Version(**json.load(f))`: requires exactly the keyword `version`,
anything else raises `TypeError`. -/
def Version.load : Json → Except String Version
  | .obj [(k, v)] =>
    if k = "version" then .ok ⟨v⟩ else .error "TypeError: unexpected keyword argument"
  | _ => .error "TypeError: argument after ** must be a mapping with key version"

/-- Python `x + 1` on the JSON scalars: succeeds only on integers. -/
def pyAddOne : Json → Except String Json
  | .int n => .ok (.int (n + 1))
  | .str _ => .error "TypeError: can only concatenate str (not int) to str"
  | .obj _ => .error "TypeError: unsupported operand type for +"

/-- `update_version`: `version.version = version.version + 1; return version`.
The in-place mutation is value-passed here; the raised `TypeError` on a
non-integer field becomes the error case. -/
def update_version (version : Version) : Except String Version :=
  (pyAddOne version.version).map (fun j => ⟨j⟩)

/-- `n`-fold application of `update_version`. -/
def bumpN : Nat → Version → Except String Version
  | 0, v => .ok v
  | n + 1, v => (update_version v).bind (bumpN n)

/-- The `BlueprintIterationModel` dataclass, restricted to the well-typed
values this system itself constructs: a string `name`, a string `path` and an
integer `iteration`.  The Python dataclass performs no runtime type checking,
so a hand-written payload can carry any value in any field; that unchecked
dynamic semantics is modelled separately by `BlueprintIterationModelDyn`
below and is what the whole-workflow analysis of claim C3 uses. -/
structure BlueprintIterationModel where
  name : String
  path : String
  iteration : Int
deriving DecidableEq

/-- `asdict` on one ledger entry. -/
def BlueprintIterationModel.asdict (m : BlueprintIterationModel) : Json :=
  .obj [("name", .str m.name), ("path", .str m.path), ("iteration", .int m.iteration)]

/-- `BlueprintIterationModel(**value)` on the well-typed fragment: keyword
construction with `name` and `path` required and `iteration` defaulting to
`FIRST_ITERATION_NUMBER`; unexpected keywords raise `TypeError`.  Python
checks only the keyword names, never the value types, so this typed loader
agrees with Python exactly on the payloads this system writes (the `asdict`
images) but rejects ill-typed fields Python would accept; the faithful
unchecked loader is `BlueprintIterationModelDyn.from_kwargs` below. -/
def BlueprintIterationModel.from_kwargs (j : Json) : Except String BlueprintIterationModel :=
  match j with
  | .obj l =>
    if l.all (fun p => p.1 == "name" || p.1 == "path" || p.1 == "iteration") then
      match dictGet l "name", dictGet l "path", dictGet l "iteration" with
      | some (.str n), some (.str p), some (.int i) => .ok ⟨n, p, i⟩
      | some (.str n), some (.str p), none => .ok ⟨n, p, FIRST_ITERATION_NUMBER⟩
      | _, _, _ => .error "TypeError: missing or ill-typed keyword argument"
    else .error "TypeError: unexpected keyword argument"
  | _ => .error "TypeError: argument after ** must be a mapping"

/-- The `Iteration` dataclass: the in-memory ledger, a dict from path string
to `BlueprintIterationModel`. -/
structure Iteration where
  iterations : List (String × BlueprintIterationModel)

/-- `asdict` on the ledger: what `json.dump` persists. -/
def Iteration.asdict (it : Iteration) : Json :=
  .obj [("iterations", .obj (it.iterations.map (fun p => (p.1, p.2.asdict))))]

/-- The dict comprehension inside `Iteration.from_dict`, left to right,
propagating the first construction error. -/
def mapEntries : List (String × Json) → Except String (List (String × BlueprintIterationModel))
  | [] => .ok []
  | p :: rest =>
    (BlueprintIterationModel.from_kwargs p.2).bind
      (fun m => (mapEntries rest).map (fun l => (p.1, m) :: l))

/-- `Iteration.from_dict`: reads `dict["iterations"]` (`KeyError` when the
field is missing, `TypeError` when the payload is not an object) and rebuilds
each entry with `BlueprintIterationModel(**value)`. -/
def Iteration.from_dict (j : Json) : Except String Iteration :=
  match j with
  | .obj l =>
    match dictGet l "iterations" with
    | some (.obj entries) => (mapEntries entries).map Iteration.mk
    | some _ => .error "TypeError: iterations is not a mapping"
    | none => .error "KeyError: iterations"
  | _ => .error "TypeError: payload is not a mapping"

/-- The `update` function.  It raises `invoke.Exit` on a non-blueprint path;
otherwise it mutates `iteration.iterations[path]` in place and falls off the
end, returning Python `None` (the second component) despite its
`-> Iteration` annotation.  The mutated ledger is the first component. -/
def update (iteration : Iteration) (status : GitFileStatus) :
    Except String (Iteration × Option BlueprintIterationModel) :=
  if !status.isBlueprintFile then
    .error "This is not the blueprint file that you are looking for."
  else
    let path := status.path
    let iteration_number :=
      match dictGet iteration.iterations path with
      | some existing => existing.iteration + 1
      | none => FIRST_ITERATION_NUMBER
    let blueprint_iteration_model : BlueprintIterationModel :=
      ⟨pathStem status.path, status.path, iteration_number⟩
    .ok (⟨dictSet iteration.iterations path blueprint_iteration_model⟩, none)

/-- The trimmed two-character status code of one porcelain line:
`line[:2]` followed by `str.strip()`. -/
def trimmedCode (line : String) : String := pyStrip pyIsSpace (pyTakeChars line 2)

/-- The effective path of one porcelain line: `line[3:]`, taking the
right-hand side of a rename arrow (`path.split("->")[1].strip()`) and
stripping surrounding double quotes (`path.strip('"')`). -/
def parsePath (line : String) : String :=
  let path0 := pyDropChars line 3
  let parts := pySplit "->" path0
  let path1 := if parts.length > 1 then pyStrip pyIsSpace (parts.getD 1 "") else path0
  pyStrip (fun c => c == '"') path1

/-- The result of processing one status line. -/
inductive ParseOutcome where
  | record (g : GitFileStatus)
  | skipped
  | invalidStatus (code : String)
  | indexError
deriving DecidableEq

/-- Enum lookup step shared by both parser modes. -/
def classify (code : String) (path : String) : ParseOutcome :=
  match GitStatus.fromValue code with
  | some st => .record ⟨path, st⟩
  | none => .invalidStatus code

/-- One iteration of the status-parsing loop of `version_and_commit`.
In staged-only mode a line whose first character is blank is dropped with a
diagnostic (`continue`); `status[0]` on an empty line raises `IndexError`.
Otherwise the trimmed code is looked up in the enum, which raises
`ValueError` naming the code when it is unsupported. -/
def parseLine (staged_only : Bool) (line : String) : ParseOutcome :=
  if staged_only then
    match line.toList with
    | [] => .indexError
    | c :: _ =>
      if c ≠ ' ' then classify (trimmedCode line) (parsePath line)
      else .skipped
  else classify (trimmedCode line) (parsePath line)

/-- The parsing loop over all lines: appends records in input order, drops
skipped lines, and propagates the first exception. -/
def parseLinesGo (staged_only : Bool) : List String → Except String (List GitFileStatus)
  | [] => .ok []
  | line :: rest =>
    match parseLine staged_only line with
    | .record g => (parseLinesGo staged_only rest).map (fun l => g :: l)
    | .skipped => parseLinesGo staged_only rest
    | .invalidStatus code => .error s!"ValueError: {code} is not a valid GitStatus"
    | .indexError => .error "IndexError: string index out of range"

/-- The status parser applied to the raw `git status --porcelain` output. -/
def parseStatuses (staged_only : Bool) (output : String) : Except String (List GitFileStatus) :=
  parseLinesGo staged_only (pySplitlines output)

/-- The interactive answers for one run, indexed by the position in the
filtered record list.  `none` models the user aborting (`click.Abort`). -/
structure Oracle where
  promptResult : Nat → Option String
  confirmResult : Nat → Option Bool

/-- The externally observable actions of a run, in order: file writes of
serialized payloads and executed shell commands. -/
inductive Event where
  | writeIteration (content : Json)
  | writeVersion (content : Json)
  | run (cmd : String)

/-- How a run ended. -/
inductive Outcome where
  | completed
  | abortedEarly
  | crashed (msg : String)

/-- The observable result of a run: the event trace, the final contents of
the two persisted files, how the run ended, and the answer the user gave at
each confirmation that was reached. -/
structure RunResult where
  events : List Event
  iterFile : Json
  verFile : Json
  outcome : Outcome
  decisions : List Bool

/-- `f"git add {ITERATION_FILE} {VERSION_FILE} '{str(status.path)}'"`. -/
def stageCmd (status : GitFileStatus) : String :=
  s!"git add {ITERATION_FILE} {VERSION_FILE} '{status.path}'"

/-- `f"git commit -m '{status.message}\n\n{custom_message}'"`. -/
def commitCmd (status : GitFileStatus) (custom_message : String) : String :=
  s!"git commit -m '{status.message}\n\n{custom_message}'"

/-- `f"git tag v{updated_version.version} -m '{status.message}\n\n{custom_message}'"`. -/
def tagCmd (updated_version : Version) (status : GitFileStatus) (custom_message : String) : String :=
  s!"git tag v{jsonPyStr updated_version.version} -m '{status.message}\n\n{custom_message}'"

/-- The per-record loop of `version_and_commit` over the filtered records.
Each pass re-reads the version file, bumps it, prompts for a custom message,
asks for confirmation, and on a yes mutates the in-memory ledger, writes the
ledger file, writes the version file, and runs stage, commit, tag and push.
A `none` oracle answer is the `Abort` handler (`return`); a declined
confirmation is `continue`.  This loop carries the well-typed ledger
(`Iteration`), the setting of the per-step claims stated over it, whose
hypotheses make the `update` branch explicit; the general dynamically-typed
loop, including the mid-loop `TypeError` and the ledger-file truncation it
leaves behind, is `releaseLoopDyn` below. -/
def releaseLoop (oracle : Oracle) :
    List GitFileStatus → Nat → Iteration → Json → Json → RunResult
  | [], _, _, itF, vF => ⟨[], itF, vF, .completed, []⟩
  | status :: rest, index, iteration, itF, vF =>
    match Version.load vF with
    | .error e => ⟨[], itF, vF, .crashed e, []⟩
    | .ok version =>
      match update_version version with
      | .error e => ⟨[], itF, vF, .crashed e, []⟩
      | .ok updated_version =>
        match oracle.promptResult index with
        | none => ⟨[], itF, vF, .abortedEarly, []⟩
        | some custom_message =>
          match oracle.confirmResult index with
          | none => ⟨[], itF, vF, .abortedEarly, []⟩
          | some false =>
            let r := releaseLoop oracle rest (index + 1) iteration itF vF
            ⟨r.events, r.iterFile, r.verFile, r.outcome, false :: r.decisions⟩
          | some true =>
            match update iteration status with
            | .error e => ⟨[], itF, vF, .crashed e, [true]⟩
            | .ok (iteration', _updated) =>
              let itF' := Iteration.asdict iteration'
              let vF' := Version.asdict updated_version
              let r := releaseLoop oracle rest (index + 1) iteration' itF' vF'
              ⟨[.writeIteration itF', .writeVersion vF',
                  .run (stageCmd status), .run (commitCmd status custom_message),
                  .run (tagCmd updated_version status custom_message), .run "git push"] ++ r.events,
                r.iterFile, r.verFile, r.outcome, true :: r.decisions⟩

/-- The ledger `initialize_warehouse` builds: the dict comprehension
`{str(model.path): model for model in iteration_models}` over the scanned
relative paths, each entry getting the default iteration. -/
def buildLedger (paths : List String) : Iteration :=
  ⟨paths.foldl (fun d p => dictSet d p ⟨pathStem p, p, FIRST_ITERATION_NUMBER⟩) []⟩

/-- The `initialize_warehouse` task.  `existingContent` is the current state
of the ledger file (`none`: absent; `some c`: present with content `c`);
`scannedPaths` are the root-relative blueprint paths `rglob` found.  When
the file holds non-empty content it raises `invoke.Exit` before any write;
otherwise the returned ledger is what `json.dump` persists. -/
def initialize_warehouse (existingContent : Option String) (scannedPaths : List String) :
    Except String Iteration :=
  match existingContent with
  | some content =>
    if content ≠ "" then .error s!"{ITERATION_FILE} already exists!"
    else .ok (buildLedger scannedPaths)
  | none => .ok (buildLedger scannedPaths)

/-- Every entry's own `path` field equals the key under which it is stored. -/
def ListPathInv (l : List (String × BlueprintIterationModel)) : Prop :=
  ∀ p ∈ l, p.2.path = p.1

/-- The path-equals-key invariant on a ledger. -/
def PathKeyInv (it : Iteration) : Prop := ListPathInv it.iterations

/-- Ledgers this system can produce: the bootstrap output and everything
reachable from it by successful `update` steps. -/
inductive ReachableLedger : Iteration → Prop where
  | boot (existingContent : Option String) (paths : List String) (it : Iteration) :
      initialize_warehouse existingContent paths = .ok it → ReachableLedger it
  | step (it : Iteration) (st : GitFileStatus) (it' : Iteration)
      (r : Option BlueprintIterationModel) :
      ReachableLedger it → update it st = .ok (it', r) → ReachableLedger it'

/-- Is this JSON value an integer? -/
def Json.isInt : Json → Bool
  | .int _ => true
  | _ => false

/-- The `BlueprintIterationModel` dataclass with Python's actual dynamic
typing: each field holds whatever JSON value the payload carried, since the
dataclass constructor never checks value types. -/
structure BlueprintIterationModelDyn where
  name : Json
  path : Json
  iteration : Json

/-- `asdict` on one dynamically-typed ledger entry. -/
def BlueprintIterationModelDyn.asdict (m : BlueprintIterationModelDyn) : Json :=
  .obj [("name", m.name), ("path", m.path), ("iteration", m.iteration)]

/-- `BlueprintIterationModel(**value)` with Python's exact semantics: `name`
and `path` required, `iteration` defaulting to `FIRST_ITERATION_NUMBER`,
unexpected keywords a `TypeError` — and no check at all on the value types. -/
def BlueprintIterationModelDyn.from_kwargs (j : Json) :
    Except String BlueprintIterationModelDyn :=
  match j with
  | .obj l =>
    if l.all (fun p => p.1 == "name" || p.1 == "path" || p.1 == "iteration") then
      match dictGet l "name", dictGet l "path" with
      | some n, some p =>
        match dictGet l "iteration" with
        | some i => .ok ⟨n, p, i⟩
        | none => .ok ⟨n, p, .int FIRST_ITERATION_NUMBER⟩
      | _, _ => .error "TypeError: missing required keyword argument"
    else .error "TypeError: unexpected keyword argument"
  | _ => .error "TypeError: argument after ** must be a mapping"

/-- The in-memory ledger over dynamically-typed entries. -/
structure IterationDyn where
  iterations : List (String × BlueprintIterationModelDyn)

/-- `asdict` on the dynamically-typed ledger. -/
def IterationDyn.asdict (it : IterationDyn) : Json :=
  .obj [("iterations", .obj (it.iterations.map (fun p => (p.1, p.2.asdict))))]

/-- The dict comprehension inside `Iteration.from_dict`, dynamic variant. -/
def mapEntriesDyn : List (String × Json) → Except String (List (String × BlueprintIterationModelDyn))
  | [] => .ok []
  | p :: rest =>
    (BlueprintIterationModelDyn.from_kwargs p.2).bind
      (fun m => (mapEntriesDyn rest).map (fun l => (p.1, m) :: l))

/-- `Iteration.from_dict` with Python's exact semantics: any JSON object
under `iterations` loads, whatever the field value types. -/
def IterationDyn.from_dict (j : Json) : Except String IterationDyn :=
  match j with
  | .obj l =>
    match dictGet l "iterations" with
    | some (.obj entries) => (mapEntriesDyn entries).map IterationDyn.mk
    | some _ => .error "AttributeError: iterations value has no items method"
    | none => .error "KeyError: iterations"
  | _ => .error "TypeError: payload is not a mapping"

/-- The `update` function over the dynamically-typed ledger.  As in the
source, `iteration_number = existing.iteration` then `iteration_number += 1`
— which raises `TypeError` when the stored field is not an integer (e.g. the
string `"3"`); a fresh entry gets the integer default.  On success it falls
off the end, returning Python `None`. -/
def updateDyn (iteration : IterationDyn) (status : GitFileStatus) :
    Except String (IterationDyn × Option BlueprintIterationModelDyn) :=
  if !status.isBlueprintFile then
    .error "This is not the blueprint file that you are looking for."
  else
    let path := status.path
    match dictGet iteration.iterations path with
    | some existing =>
      (pyAddOne existing.iteration).map (fun n =>
        (⟨dictSet iteration.iterations path
          ⟨.str (pathStem status.path), .str status.path, n⟩⟩, none))
    | none =>
      .ok (⟨dictSet iteration.iterations path
        ⟨.str (pathStem status.path), .str status.path, .int FIRST_ITERATION_NUMBER⟩⟩, none)

/-- The observable result of a dynamically-typed run.  `iterFile` is `none`
when the run left the ledger file truncated: `open(ITERATION_FILE, 'w')`
empties the file before `update` runs, so an exception inside `update`
escapes with the file emptied and never rewritten. -/
structure RunResultDyn where
  events : List Event
  iterFile : Option Json
  verFile : Json
  outcome : Outcome
  decisions : List Bool

/-- The per-record loop over the dynamically-typed ledger — the general
semantics of the source, where a confirmed record first truncates the ledger
file, then runs `update` (which can raise `TypeError` on a non-integer
stored iteration), and only afterwards writes the ledger payload and the
bumped version. -/
def releaseLoopDyn (oracle : Oracle) :
    List GitFileStatus → Nat → IterationDyn → Option Json → Json → RunResultDyn
  | [], _, _, itF, vF => ⟨[], itF, vF, .completed, []⟩
  | status :: rest, index, iteration, itF, vF =>
    match Version.load vF with
    | .error e => ⟨[], itF, vF, .crashed e, []⟩
    | .ok version =>
      match update_version version with
      | .error e => ⟨[], itF, vF, .crashed e, []⟩
      | .ok updated_version =>
        match oracle.promptResult index with
        | none => ⟨[], itF, vF, .abortedEarly, []⟩
        | some custom_message =>
          match oracle.confirmResult index with
          | none => ⟨[], itF, vF, .abortedEarly, []⟩
          | some false =>
            let r := releaseLoopDyn oracle rest (index + 1) iteration itF vF
            ⟨r.events, r.iterFile, r.verFile, r.outcome, false :: r.decisions⟩
          | some true =>
            match updateDyn iteration status with
            | .error e => ⟨[], none, vF, .crashed e, [true]⟩
            | .ok (iteration', _updated) =>
              let itF' := IterationDyn.asdict iteration'
              let vF' := Version.asdict updated_version
              let r := releaseLoopDyn oracle rest (index + 1) iteration' (some itF') vF'
              ⟨[.writeIteration itF', .writeVersion vF',
                  .run (stageCmd status), .run (commitCmd status custom_message),
                  .run (tagCmd updated_version status custom_message), .run "git push"] ++ r.events,
                r.iterFile, r.verFile, r.outcome, true :: r.decisions⟩

/-- The `version_and_commit` task over the dynamically-typed ledger: parse
the porcelain output, load the ledger once (any value types load), filter to
blueprint files, then run the per-record loop. -/
def version_and_commitDyn (staged_only : Bool) (gitOutput : String)
    (iterFile verFile : Json) (oracle : Oracle) : RunResultDyn :=
  match parseStatuses staged_only gitOutput with
  | .error e => ⟨[], some iterFile, verFile, .crashed e, []⟩
  | .ok statuses =>
    match IterationDyn.from_dict iterFile with
    | .error e => ⟨[], some iterFile, verFile, .crashed e, []⟩
    | .ok iteration =>
      let filtered := statuses.filter (fun s => pathSuffix s.path == BLUEPRINT_EXTENSION)
      releaseLoopDyn oracle filtered 0 iteration (some iterFile) verFile

/-- Every loaded entry stores an integer in its `iteration` field — the
documented ledger format, and what every ledger this system itself writes
satisfies. -/
def IntIterations (it : IterationDyn) : Prop :=
  ∀ p ∈ it.iterations, p.2.iteration.isInt = true

/-- A hand-written ledger payload whose `iteration` field is the string
`"3"`: Python's loader accepts it, since the dataclass checks no types. -/
def stringIterationLedgerPayload : Json :=
  Json.obj [("iterations", Json.obj [("a.spz2bp", Json.obj
    [("name", Json.str "a"), ("path", Json.str "a.spz2bp"), ("iteration", Json.str "3")])])]

/-- The run exercised by the C3 counterexample: one modified blueprint, the
user confirms, the stored iteration is the string `"3"`. -/
def stringIterationRun : RunResultDyn :=
  version_and_commitDyn false "M  a.spz2bp" stringIterationLedgerPayload
    (Json.obj [("version", Json.int 7)]) ⟨fun _ => some "", fun _ => some true⟩

theorem dictGet_dictSet_self {β : Type} (l : List (String × β)) (k : String) (v : β) :
    dictGet (dictSet l k v) k = some v := by
  induction l with
  | nil => simp [dictGet, dictSet]
  | cons p rest ih =>
    by_cases h : p.1 = k
    · simp [dictSet, dictGet, h]
    · simp [dictSet, dictGet, h, ih]

theorem dictGet_dictSet_ne {β : Type} (l : List (String × β)) (k k' : String) (v : β)
    (h : k' ≠ k) : dictGet (dictSet l k v) k' = dictGet l k' := by
  induction l with
  | nil => simp [dictGet, dictSet, Ne.symm h]
  | cons p rest ih =>
    by_cases hp : p.1 = k
    · simp [dictSet, dictGet, hp, Ne.symm h]
    · by_cases hq : p.1 = k'
      · simp only [dictSet, if_neg hp, dictGet, if_pos hq]
      · simp only [dictSet, if_neg hp, dictGet, if_neg hq, ih]

theorem listPathInv_dictSet (k : String) (m : BlueprintIterationModel) (hm : m.path = k) :
    ∀ l : List (String × BlueprintIterationModel), ListPathInv l → ListPathInv (dictSet l k m) := by
  intro l
  induction l with
  | nil =>
    intro _ p hp
    simp [dictSet] at hp
    subst hp
    exact hm
  | cons q rest ih =>
    intro hl p hp
    by_cases hq : q.1 = k
    · simp [dictSet, hq] at hp
      rcases hp with hp | hp
      · subst hp; exact hm
      · exact hl p (List.mem_cons_of_mem q hp)
    · simp only [dictSet, hq, if_false, List.mem_cons] at hp
      rcases hp with hp | hp
      · subst hp; exact hl p (List.mem_cons_self p rest)
      · exact ih (fun x hx => hl x (List.mem_cons_of_mem q hx)) p hp

theorem listPathInv_buildFold :
    ∀ (paths : List String) (d : List (String × BlueprintIterationModel)), ListPathInv d →
      ListPathInv (paths.foldl (fun d p => dictSet d p ⟨pathStem p, p, FIRST_ITERATION_NUMBER⟩) d) := by
  intro paths
  induction paths with
  | nil => intro d hd; simpa using hd
  | cons p rest ih =>
    intro d hd
    simpa [List.foldl_cons] using ih _ (listPathInv_dictSet p ⟨pathStem p, p, FIRST_ITERATION_NUMBER⟩ rfl d hd)

theorem pathKeyInv_buildLedger (paths : List String) : PathKeyInv (buildLedger paths) := by
  have h := listPathInv_buildFold paths [] (by intro p hp; simp at hp)
  simpa [buildLedger, PathKeyInv] using h

theorem initialize_warehouse_ok (existingContent : Option String) (paths : List String)
    (it : Iteration) (h : initialize_warehouse existingContent paths = .ok it) :
    it = buildLedger paths := by
  cases existingContent with
  | none => simpa [initialize_warehouse] using h.symm
  | some content =>
    by_cases hc : content = ""
    · simp [initialize_warehouse, hc] at h
      exact h.symm
    · simp [initialize_warehouse, hc] at h

theorem update_ok_shape (it : Iteration) (st : GitFileStatus) (it' : Iteration)
    (r : Option BlueprintIterationModel) (h : update it st = .ok (it', r)) :
    r = none ∧
      it' = ⟨dictSet it.iterations st.path
        ⟨pathStem st.path, st.path,
          match dictGet it.iterations st.path with
          | some existing => existing.iteration + 1
          | none => FIRST_ITERATION_NUMBER⟩⟩ := by
  by_cases hb : st.isBlueprintFile
  · simp only [update, hb, Bool.not_true, Bool.false_eq_true, if_false, Except.ok.injEq,
      Prod.mk.injEq] at h
    exact ⟨h.2.symm, h.1.symm⟩
  · simp [update, hb] at h

theorem mapEntries_asdict :
    ∀ l : List (String × BlueprintIterationModel),
      mapEntries (l.map (fun p => (p.1, p.2.asdict))) = .ok l := by
  intro l
  induction l with
  | nil => rfl
  | cons p rest ih =>
    have hk : BlueprintIterationModel.from_kwargs p.2.asdict = .ok p.2 := rfl
    simp [mapEntries, hk, ih, Except.bind, Except.map]

theorem from_dict_asdict (it : Iteration) :
    Iteration.from_dict (Iteration.asdict it) = .ok it := by
  cases it with
  | mk l =>
    simp [Iteration.asdict, Iteration.from_dict, dictGet, mapEntries_asdict l, Except.map]

/-- C4: when a record is confirmed, the loop body emits exactly, in order:
the ledger-file write carrying the just-mutated ledger (`iteration'`, the
output of `update`, not the stale one), the version-file write carrying the
bumped counter, then the stage, commit, tag and push commands, and then
continues with the rest of the records from the mutated state. -/
theorem confirmed_step_event_order (oracle : Oracle) (index : Nat) (status : GitFileStatus)
    (rest : List GitFileStatus) (iteration iteration' : Iteration) (itF vF : Json)
    (version uv : Version) (msg : String) (ret : Option BlueprintIterationModel)
    (hload : Version.load vF = .ok version)
    (hbump : update_version version = .ok uv)
    (hprompt : oracle.promptResult index = some msg)
    (hconfirm : oracle.confirmResult index = some true)
    (hupdate : update iteration status = .ok (iteration', ret)) :
    releaseLoop oracle (status :: rest) index iteration itF vF =
      ⟨[Event.writeIteration (Iteration.asdict iteration'),
        Event.writeVersion (Version.asdict uv),
        Event.run (stageCmd status), Event.run (commitCmd status msg),
        Event.run (tagCmd uv status msg), Event.run "git push"] ++
          (releaseLoop oracle rest (index + 1) iteration'
            (Iteration.asdict iteration') (Version.asdict uv)).events,
        (releaseLoop oracle rest (index + 1) iteration'
          (Iteration.asdict iteration') (Version.asdict uv)).iterFile,
        (releaseLoop oracle rest (index + 1) iteration'
          (Iteration.asdict iteration') (Version.asdict uv)).verFile,
        (releaseLoop oracle rest (index + 1) iteration'
          (Iteration.asdict iteration') (Version.asdict uv)).outcome,
        true :: (releaseLoop oracle rest (index + 1) iteration'
          (Iteration.asdict iteration') (Version.asdict uv)).decisions⟩ := by
  simp only [releaseLoop, hload, hbump, hprompt, hconfirm, hupdate]

/-- C4 witness: the concrete trace of one confirmed change on an empty
ledger at version 3. -/
theorem confirmed_step_event_order_witness :
    (releaseLoop ⟨fun _ => some "note", fun _ => some true⟩
        [⟨"art/Hull.spz2bp", GitStatus.MODIFIED⟩] 0 ⟨[]⟩ (Json.obj [("iterations", Json.obj [])])
        (Json.obj [("version", Json.int 3)])).events
      = [Event.writeIteration (Iteration.asdict ⟨[("art/Hull.spz2bp",
            ⟨"Hull", "art/Hull.spz2bp", 1⟩)]⟩),
         Event.writeVersion (Json.obj [("version", Json.int 4)]),
         Event.run "git add iteration.json version.json 'art/Hull.spz2bp'",
         Event.run (commitCmd ⟨"art/Hull.spz2bp", GitStatus.MODIFIED⟩ "note"),
         Event.run (tagCmd ⟨Json.int 4⟩ ⟨"art/Hull.spz2bp", GitStatus.MODIFIED⟩ "note"),
         Event.run "git push"] := by
  rw [confirmed_step_event_order ⟨fun _ => some "note", fun _ => some true⟩ 0
      ⟨"art/Hull.spz2bp", GitStatus.MODIFIED⟩ [] ⟨[]⟩
      ⟨[("art/Hull.spz2bp", ⟨"Hull", "art/Hull.spz2bp", 1⟩)]⟩
      (Json.obj [("iterations", Json.obj [])]) (Json.obj [("version", Json.int 3)])
      ⟨Json.int 3⟩ ⟨Json.int 4⟩ "note" none rfl rfl rfl rfl rfl]
  rfl

/-- C5: when the user declines the confirmation for a record, nothing is
written and no command is run for it (the result is exactly the result of
the loop on the remaining records, from unchanged files and ledger), and the
loop continues with the next record rather than aborting the run. -/
theorem declined_step_skips (oracle : Oracle) (index : Nat) (status : GitFileStatus)
    (rest : List GitFileStatus) (iteration : Iteration) (itF vF : Json)
    (version uv : Version) (msg : String)
    (hload : Version.load vF = .ok version)
    (hbump : update_version version = .ok uv)
    (hprompt : oracle.promptResult index = some msg)
    (hdecline : oracle.confirmResult index = some false) :
    releaseLoop oracle (status :: rest) index iteration itF vF =
      ⟨(releaseLoop oracle rest (index + 1) iteration itF vF).events,
        (releaseLoop oracle rest (index + 1) iteration itF vF).iterFile,
        (releaseLoop oracle rest (index + 1) iteration itF vF).verFile,
        (releaseLoop oracle rest (index + 1) iteration itF vF).outcome,
        false :: (releaseLoop oracle rest (index + 1) iteration itF vF).decisions⟩ := by
  simp only [releaseLoop, hload, hbump, hprompt, hdecline]

/-- C5 witness: declining the single record leaves both files as they were,
emits no event, and completes the run. -/
theorem declined_step_skips_witness :
    releaseLoop ⟨fun _ => some "", fun _ => some false⟩
        [⟨"art/Hull.spz2bp", GitStatus.MODIFIED⟩] 0 ⟨[]⟩ (Json.obj [("iterations", Json.obj [])])
        (Json.obj [("version", Json.int 3)])
      = ⟨[], Json.obj [("iterations", Json.obj [])], Json.obj [("version", Json.int 3)],
          Outcome.completed, [false]⟩ := by
  rw [declined_step_skips ⟨fun _ => some "", fun _ => some false⟩ 0
      ⟨"art/Hull.spz2bp", GitStatus.MODIFIED⟩ [] ⟨[]⟩
      (Json.obj [("iterations", Json.obj [])]) (Json.obj [("version", Json.int 3)])
      ⟨Json.int 3⟩ ⟨Json.int 4⟩ "" rfl rfl rfl rfl]
  rfl

/-- C1 counterexample: `update` does not keep an existing entry's `name`.
On a ledger whose entry at `"art/Hull.spz2bp"` is named `"X"`, the updated
entry is renamed to the path's stem `"Hull"`, so the claim's "name and path
fields are unchanged" is false as stated. -/
theorem update_changes_name_counterexample :
    update ⟨[("art/Hull.spz2bp", ⟨"X", "art/Hull.spz2bp", 2⟩)]⟩
        ⟨"art/Hull.spz2bp", GitStatus.MODIFIED⟩
      = .ok (⟨[("art/Hull.spz2bp", ⟨"Hull", "art/Hull.spz2bp", 3⟩)]⟩, none) ∧
    "Hull" ≠ "X" := ⟨rfl, by decide⟩

/-- C1 (amended): whenever the path has the blueprint extension (`update`
raises on any other path), the updated ledger stores at key `p` the entry
`⟨stem p, p, old iteration + 1⟩` when an entry existed, or
`⟨stem p, p, FIRST_ITERATION_NUMBER⟩` when none did, and every other key is
untouched.  The name and path fields therefore coincide with the old ones
exactly when the old entry already satisfied `name = stem p`, `path = p`. -/
theorem update_recordChange_amended (it : Iteration) (st : GitFileStatus)
    (h : pathSuffix st.path = BLUEPRINT_EXTENSION) :
    ∃ it', update it st = .ok (it', none) ∧
      dictGet it'.iterations st.path =
        some ⟨pathStem st.path, st.path,
          match dictGet it.iterations st.path with
          | some existing => existing.iteration + 1
          | none => FIRST_ITERATION_NUMBER⟩ ∧
      ∀ k, k ≠ st.path → dictGet it'.iterations k = dictGet it.iterations k := by
  refine ⟨⟨dictSet it.iterations st.path
      ⟨pathStem st.path, st.path,
        match dictGet it.iterations st.path with
        | some existing => existing.iteration + 1
        | none => FIRST_ITERATION_NUMBER⟩⟩, ?_, ?_, ?_⟩
  · simp [update, GitFileStatus.isBlueprintFile, h]
  · exact dictGet_dictSet_self _ _ _
  · intro k hk
    exact dictGet_dictSet_ne _ _ _ _ hk

/-- C1 witness: the amended statement evaluated on a one-entry ledger whose
entry is already in system form. -/
theorem update_recordChange_amended_witness :
    ∃ it', update ⟨[("art/Hull.spz2bp", ⟨"Hull", "art/Hull.spz2bp", 2⟩)]⟩
        ⟨"art/Hull.spz2bp", GitStatus.MODIFIED⟩ = .ok (it', none) ∧
      dictGet it'.iterations "art/Hull.spz2bp" =
        some ⟨pathStem "art/Hull.spz2bp", "art/Hull.spz2bp",
          match dictGet ((⟨[("art/Hull.spz2bp", ⟨"Hull", "art/Hull.spz2bp", 2⟩)]⟩ :
              Iteration)).iterations "art/Hull.spz2bp" with
          | some existing => existing.iteration + 1
          | none => FIRST_ITERATION_NUMBER⟩ ∧
      ∀ k, k ≠ "art/Hull.spz2bp" →
        dictGet it'.iterations k =
          dictGet ((⟨[("art/Hull.spz2bp", ⟨"Hull", "art/Hull.spz2bp", 2⟩)]⟩ :
            Iteration)).iterations k :=
  update_recordChange_amended ⟨[("art/Hull.spz2bp", ⟨"Hull", "art/Hull.spz2bp", 2⟩)]⟩
    ⟨"art/Hull.spz2bp", GitStatus.MODIFIED⟩ rfl

/-- C2 counterexample: on a conforming version file per the claim (the
`version` field holds the string form of an integer, here `"0"`),
`update_version` raises `TypeError` instead of producing `v + 1`. -/
theorem update_version_string_counterexample :
    update_version ⟨Json.str "0"⟩
      = .error "TypeError: can only concatenate str (not int) to str" := rfl

/-- C2 (amended): for a version file whose `version` field holds a
non-negative integer `v` (string-form fields make the bump raise, see the
counterexample), `update_version` yields `v + 1` and `n` applications from
`v` yield `v + n`. -/
theorem update_version_bump_amended (v : Int) (hv : 0 ≤ v) :
    update_version ⟨Json.int v⟩ = .ok ⟨Json.int (v + 1)⟩ ∧
    ∀ n : Nat, bumpN n ⟨Json.int v⟩ = .ok ⟨Json.int (v + n)⟩ := by
  constructor
  · rfl
  · intro n
    induction n generalizing v with
    | zero => simp [bumpN]
    | succ n ihn =>
      have h1 : update_version ⟨Json.int v⟩ = .ok ⟨Json.int (v + 1)⟩ := rfl
      simp only [bumpN, h1, Except.bind]
      rw [ihn (v + 1) (by omega)]
      rw [show v + 1 + (n : Int) = v + ((n + 1 : Nat) : Int) by push_cast; ring]

/-- C2 witness: bumping 0 once gives 1; three bumps from 0 give 3. -/
theorem update_version_bump_amended_witness :
    (0 : Int) ≤ 0 ∧ update_version ⟨Json.int 0⟩ = .ok ⟨Json.int 1⟩ ∧
      bumpN 3 ⟨Json.int 0⟩ = .ok ⟨Json.int 3⟩ :=
  ⟨by decide, (update_version_bump_amended 0 (by decide)).1,
    (update_version_bump_amended 0 (by decide)).2 3⟩

/-- C6 counterexample: in staged-only mode a line whose first character is
blank is skipped (with a diagnostic), even though its trimmed code `"M"` is
in the supported set — it is neither mapped to a status kind nor a parse
failure, so the claim is false as stated over both parser modes. -/
theorem staged_mode_skips_supported_code_counterexample :
    parseLine true " M art/Hull.spz2bp" = .skipped ∧
    trimmedCode " M art/Hull.spz2bp" = "M" ∧
    GitStatus.fromValue "M" = some GitStatus.MODIFIED := ⟨rfl, rfl, rfl⟩

/-- C6 (amended): for every line the staged-only filter does not drop — in
all-changes mode every line, in staged-only mode lines whose first character
is not blank — a trimmed code in the supported set parses to the unique
status kind carrying that code, and any other trimmed code fails with a
`ValueError` naming the offending code rather than being silently skipped. -/
theorem parseLine_code_classification (staged_only : Bool) (line : String)
    (h : staged_only = false ∨ line.toList.headD ' ' ≠ ' ') :
    (∀ st : GitStatus, GitStatus.fromValue (trimmedCode line) = some st →
        parseLine staged_only line = .record ⟨parsePath line, st⟩) ∧
    (GitStatus.fromValue (trimmedCode line) = none →
        parseLine staged_only line = .invalidStatus (trimmedCode line)) ∧
    (∀ g1 g2 : GitStatus, g1.value = g2.value → g1 = g2) := by
  have hcl : parseLine staged_only line = classify (trimmedCode line) (parsePath line) := by
    rcases h with h | h
    · subst h; rfl
    · cases staged_only with
      | false => rfl
      | true =>
        cases hl : line.toList with
        | nil => rw [hl] at h; simp at h
        | cons c cs =>
          rw [hl] at h
          simp only [List.headD_cons] at h
          have hd : line.data = c :: cs := hl
          simp [parseLine, hd, h]
  refine ⟨?_, ?_, ?_⟩
  · intro st hst
    rw [hcl]
    simp [classify, hst]
  · intro hnone
    rw [hcl]
    simp [classify, hnone]
  · intro g1 g2
    cases g1 <;> cases g2 <;> decide

/-- C6 witness: a modified blueprint line parses to `MODIFIED`, and an
unsupported code `"XY"` fails naming that code. -/
theorem parseLine_code_classification_witness :
    parseLine false "M  art/Hull.spz2bp" = .record ⟨"art/Hull.spz2bp", GitStatus.MODIFIED⟩ ∧
    parseLine false "XY a.txt" = .invalidStatus "XY" := by
  constructor
  · exact (parseLine_code_classification false "M  art/Hull.spz2bp" (Or.inl rfl)).1
      GitStatus.MODIFIED rfl
  · exact (parseLine_code_classification false "XY a.txt" (Or.inl rfl)).2.1 rfl

/-- C7: when the ledger file exists with non-empty content,
`initialize_warehouse` fails with a descriptive error naming the file and
returns no ledger to write (the raise precedes any open-for-write in the
source); when the file is absent or empty it proceeds and produces the newly
built ledger. -/
theorem initialize_warehouse_guard (existingContent : Option String) (paths : List String) :
    (∀ content, existingContent = some content → content ≠ "" →
        initialize_warehouse existingContent paths = .error "iteration.json already exists!") ∧
    ((existingContent = none ∨ existingContent = some "") →
        initialize_warehouse existingContent paths = .ok (buildLedger paths)) := by
  constructor
  · intro content hc hne
    subst hc
    simp only [initialize_warehouse, if_pos hne]
    rfl
  · intro hc
    rcases hc with hc | hc <;> subst hc <;> rfl

/-- C7 witness: a non-empty ledger file blocks the bootstrap; an absent one
lets it build the ledger. -/
theorem initialize_warehouse_guard_witness :
    initialize_warehouse (some "data") [] = .error "iteration.json already exists!" ∧
    initialize_warehouse none ["art/Hull.spz2bp"] = .ok (buildLedger ["art/Hull.spz2bp"]) :=
  ⟨(initialize_warehouse_guard (some "data") []).1 "data" rfl (by decide),
    (initialize_warehouse_guard none ["art/Hull.spz2bp"]).2 (Or.inl rfl)⟩

/-- C8: every ledger `initialize_warehouse` produces, and every ledger
reachable from one by successful `update` steps, stores each entry under a
key equal to the entry's own `path` field. -/
theorem reachable_ledger_path_key_invariant (it : Iteration) (h : ReachableLedger it) :
    PathKeyInv it := by
  induction h with
  | boot existingContent paths it0 heq =>
    have hb := initialize_warehouse_ok existingContent paths it0 heq
    subst hb
    exact pathKeyInv_buildLedger paths
  | step it0 st it' r _ hup ih =>
    obtain ⟨-, hshape⟩ := update_ok_shape it0 st it' r hup
    subst hshape
    exact listPathInv_dictSet st.path
      ⟨pathStem st.path, st.path,
        match dictGet it0.iterations st.path with
        | some existing => existing.iteration + 1
        | none => FIRST_ITERATION_NUMBER⟩ rfl it0.iterations ih

/-- C8 witness: the bootstrap ledger over one blueprint satisfies the
invariant. -/
theorem reachable_ledger_path_key_invariant_witness :
    PathKeyInv ⟨[("art/Hull.spz2bp", ⟨"Hull", "art/Hull.spz2bp", 1⟩)]⟩ :=
  reachable_ledger_path_key_invariant _
    (ReachableLedger.boot none ["art/Hull.spz2bp"] _ rfl)

/-- C9: serialising after deserialising is the identity on every payload
this system writes (the images of `asdict`), for both the ledger and the
version counter: `save (load x) = x`. -/
theorem save_load_roundtrip :
    (∀ it : Iteration, (Iteration.from_dict (Iteration.asdict it)).map Iteration.asdict
        = .ok (Iteration.asdict it)) ∧
    (∀ v : Version, (Version.load (Version.asdict v)).map Version.asdict
        = .ok (Version.asdict v)) := by
  constructor
  · intro it
    rw [from_dict_asdict]
    rfl
  · intro v
    rfl

/-- C9 witness: the round trip evaluated on a one-entry ledger. -/
theorem save_load_roundtrip_witness :
    (Iteration.from_dict (Iteration.asdict ⟨[("a.spz2bp", ⟨"a", "a.spz2bp", 2⟩)]⟩)).map
        Iteration.asdict
      = .ok (Iteration.asdict ⟨[("a.spz2bp", ⟨"a", "a.spz2bp", 2⟩)]⟩) :=
  save_load_roundtrip.1 ⟨[("a.spz2bp", ⟨"a", "a.spz2bp", 2⟩)]⟩

/-- C10: whenever `update` does not raise it returns Python `None` (despite
its `-> Iteration` annotation), and in the confirmed branch of the workflow
the first persisted payload is the serialisation of the mutated `iteration`
argument (`it'`), not of the `None` value bound to `updated`. -/
theorem update_returns_none (it : Iteration) (st : GitFileStatus) (it' : Iteration)
    (r : Option BlueprintIterationModel) (h : update it st = .ok (it', r)) :
    r = none ∧
    ∀ (oracle : Oracle) (index : Nat) (rest : List GitFileStatus) (itF vF : Json)
      (version uv : Version) (msg : String),
      Version.load vF = .ok version → update_version version = .ok uv →
      oracle.promptResult index = some msg → oracle.confirmResult index = some true →
      (releaseLoop oracle (st :: rest) index it itF vF).events.head?
        = some (Event.writeIteration (Iteration.asdict it')) := by
  obtain ⟨hr, -⟩ := update_ok_shape it st it' r h
  refine ⟨hr, ?_⟩
  intro oracle index rest itF vF version uv msg hload hbump hprompt hconfirm
  simp [releaseLoop, hload, hbump, hprompt, hconfirm, h]

/-- C10 witness: on an empty ledger the confirmed branch's first event is
the ledger write carrying the freshly inserted entry. -/
theorem update_returns_none_witness :
    (releaseLoop ⟨fun _ => some "m", fun _ => some true⟩ [⟨"a.spz2bp", GitStatus.ADDED⟩] 0 ⟨[]⟩
        (Json.obj [("iterations", Json.obj [])]) (Json.obj [("version", Json.int 3)])).events.head?
      = some (Event.writeIteration (Iteration.asdict ⟨[("a.spz2bp", ⟨"a", "a.spz2bp", 1⟩)]⟩)) :=
  (update_returns_none ⟨[]⟩ ⟨"a.spz2bp", GitStatus.ADDED⟩ ⟨[("a.spz2bp", ⟨"a", "a.spz2bp", 1⟩)]⟩
      none rfl).2 ⟨fun _ => some "m", fun _ => some true⟩ 0 []
    (Json.obj [("iterations", Json.obj [])]) (Json.obj [("version", Json.int 3)])
    ⟨Json.int 3⟩ ⟨Json.int 4⟩ "m" rfl rfl rfl rfl

theorem dictGet_mem {β : Type} (k : String) (v : β) :
    ∀ l : List (String × β), dictGet l k = some v → (k, v) ∈ l := by
  intro l
  induction l with
  | nil => intro h; simp [dictGet] at h
  | cons p rest ih =>
    intro h
    cases p with
    | mk a b =>
      by_cases hp : a = k
      · subst hp
        simp only [dictGet, eq_self_iff_true, if_true, Option.some.injEq] at h
        subst h
        exact List.mem_cons_self _ _
      · simp only [dictGet, hp, if_false] at h
        exact List.mem_cons_of_mem _ (ih h)

theorem forall_mem_dictSet {β : Type} (P : String × β → Prop) (k : String) (v : β)
    (hv : P (k, v)) :
    ∀ l : List (String × β), (∀ p ∈ l, P p) → ∀ p ∈ dictSet l k v, P p := by
  intro l
  induction l with
  | nil =>
    intro _ p hp
    simp [dictSet] at hp
    subst hp
    exact hv
  | cons q rest ih =>
    intro hl p hp
    by_cases hq : q.1 = k
    · simp [dictSet, hq] at hp
      rcases hp with hp | hp
      · subst hp; exact hv
      · exact hl p (List.mem_cons_of_mem q hp)
    · simp only [dictSet, hq, if_false, List.mem_cons] at hp
      rcases hp with hp | hp
      · subst hp; exact hl p (List.mem_cons_self p rest)
      · exact ih (fun x hx => hl x (List.mem_cons_of_mem q hx)) p hp

theorem updateDyn_int_ok (iteration : IterationDyn) (st : GitFileStatus)
    (hst : pathSuffix st.path = BLUEPRINT_EXTENSION) (hInt : IntIterations iteration) :
    ∃ it', updateDyn iteration st = .ok (it', none) ∧ IntIterations it' := by
  cases hdg : dictGet iteration.iterations st.path with
  | none =>
    refine ⟨⟨dictSet iteration.iterations st.path
      ⟨Json.str (pathStem st.path), Json.str st.path, Json.int FIRST_ITERATION_NUMBER⟩⟩, ?_, ?_⟩
    · simp [updateDyn, GitFileStatus.isBlueprintFile, hst, hdg]
    · exact forall_mem_dictSet (fun p => p.2.iteration.isInt = true) st.path
        ⟨Json.str (pathStem st.path), Json.str st.path, Json.int FIRST_ITERATION_NUMBER⟩
        rfl iteration.iterations (fun p hp => hInt p hp)
  | some existing =>
    have hmem := dictGet_mem st.path existing iteration.iterations hdg
    have hInt0 := hInt _ hmem
    cases hj : existing.iteration with
    | int n =>
      refine ⟨⟨dictSet iteration.iterations st.path
        ⟨Json.str (pathStem st.path), Json.str st.path, Json.int (n + 1)⟩⟩, ?_, ?_⟩
      · simp [updateDyn, GitFileStatus.isBlueprintFile, hst, hdg, hj, pyAddOne, Except.map]
      · exact forall_mem_dictSet (fun p => p.2.iteration.isInt = true) st.path
          ⟨Json.str (pathStem st.path), Json.str st.path, Json.int (n + 1)⟩
          rfl iteration.iterations (fun p hp => hInt p hp)
    | str s => rw [hj] at hInt0; simp [Json.isInt] at hInt0
    | obj ms => rw [hj] at hInt0; simp [Json.isInt] at hInt0

theorem releaseLoopDyn_verFile_counts (oracle : Oracle) :
    ∀ (l : List GitFileStatus) (index : Nat) (iteration : IterationDyn)
      (itF : Option Json) (v0 : Int),
      (∀ st ∈ l, pathSuffix st.path = BLUEPRINT_EXTENSION) →
      IntIterations iteration →
      (releaseLoopDyn oracle l index iteration itF (Json.obj [("version", Json.int v0)])).verFile
        = Json.obj [("version", Json.int (v0 +
            ((releaseLoopDyn oracle l index iteration itF
                (Json.obj [("version", Json.int v0)])).decisions.count true)))] := by
  intro l
  induction l with
  | nil =>
    intro index iteration itF v0 _ _
    simp [releaseLoopDyn]
  | cons st rest ih =>
    intro index iteration itF v0 h hInt
    have hst : pathSuffix st.path = BLUEPRINT_EXTENSION := h st (List.mem_cons_self st rest)
    have htail : ∀ x ∈ rest, pathSuffix x.path = BLUEPRINT_EXTENSION :=
      fun x hx => h x (List.mem_cons_of_mem st hx)
    have hload : Version.load (Json.obj [("version", Json.int v0)]) = .ok ⟨Json.int v0⟩ := rfl
    have hbump : update_version ⟨Json.int v0⟩ = .ok ⟨Json.int (v0 + 1)⟩ := rfl
    cases hpr : oracle.promptResult index with
    | none => simp [releaseLoopDyn, hload, hbump, hpr]
    | some msg =>
      cases hcf : oracle.confirmResult index with
      | none => simp [releaseLoopDyn, hload, hbump, hpr, hcf]
      | some b =>
        cases b with
        | false =>
          have ihr := ih (index + 1) iteration itF v0 htail hInt
          simp only [releaseLoopDyn, hload, hbump, hpr, hcf, List.count_cons]
          simp only [ihr]
          simp
        | true =>
          obtain ⟨iteration', hupd, hInt'⟩ := updateDyn_int_ok iteration st hst hInt
          have ihr := ih (index + 1) iteration' (some (IterationDyn.asdict iteration'))
            (v0 + 1) htail hInt'
          simp only [releaseLoopDyn, hload, hbump, hpr, hcf, hupd, Version.asdict]
          simp only [ihr]
          simp [List.count_cons, Int.add_assoc, Int.add_comm, Int.add_left_comm]

/-- C3 counterexample: on a ledger file Python loads without complaint — one
entry whose `iteration` field is the string `"3"` — with one modified
blueprint and the user confirming, the run truncates the ledger file
(`iterFile = none`), then crashes with `TypeError` inside `update` before
the version write: one record was confirmed (`decisions = [true]`) yet the
stored version stays 7, not 7 + 1, so the claim is false as stated. -/
theorem version_skip_on_typeerror_counterexample :
    stringIterationRun.decisions = [true] ∧
    stringIterationRun.verFile = Json.obj [("version", Json.int 7)] ∧
    stringIterationRun.iterFile = none ∧
    stringIterationRun.outcome
      = Outcome.crashed "TypeError: can only concatenate str (not int) to str" ∧
    Json.obj [("version", Json.int 7)] ≠ Json.obj [("version", Json.int (7 + 1))] := by
  refine ⟨rfl, rfl, rfl, rfl, ?_⟩
  intro h
  simp at h

/-- C3 (amended): across one `version_and_commit` run started on a version
file holding integer `v0` and a ledger file all of whose entries carry
integer `iteration` fields — the documented ledger format, satisfied by
every ledger this system itself writes — the version file afterwards holds
`v0 + k`, where `k` is the number of records the user answered yes to
(`decisions.count true`); declined records contribute nothing, and aborts or
crashes stop the run before any further write.  On a ledger entry whose
`iteration` is a string, a confirmed record instead crashes in `update`
after truncating the ledger file and before the version write, leaving the
version at `v0` with one record confirmed (see the counterexample). -/
theorem version_file_tracks_confirmations_amended (staged_only : Bool) (gitOutput : String)
    (iterFile : Json) (v0 : Int) (oracle : Oracle)
    (h : ∀ it, IterationDyn.from_dict iterFile = .ok it → IntIterations it) :
    (version_and_commitDyn staged_only gitOutput iterFile
        (Json.obj [("version", Json.int v0)]) oracle).verFile
      = Json.obj [("version", Json.int (v0 +
          ((version_and_commitDyn staged_only gitOutput iterFile
              (Json.obj [("version", Json.int v0)]) oracle).decisions.count true)))] := by
  unfold version_and_commitDyn
  cases hp : parseStatuses staged_only gitOutput with
  | error e => simp
  | ok statuses =>
    cases hd : IterationDyn.from_dict iterFile with
    | error e => simp
    | ok iteration =>
      simp only []
      apply releaseLoopDyn_verFile_counts
      · intro st hst
        simpa using List.of_mem_filter hst
      · exact h iteration hd

/-- C3 witness: the same run as the counterexample but with the entry's
`iteration` a genuine integer 3 moves the stored version from 7 to 8. -/
theorem version_file_tracks_confirmations_amended_witness :
    (version_and_commitDyn false "M  a.spz2bp"
        (Json.obj [("iterations", Json.obj [("a.spz2bp", Json.obj
          [("name", Json.str "a"), ("path", Json.str "a.spz2bp"), ("iteration", Json.int 3)])])])
        (Json.obj [("version", Json.int 7)]) ⟨fun _ => some "", fun _ => some true⟩).verFile
      = Json.obj [("version", Json.int 8)] := by
  have hpayload : ∀ it, IterationDyn.from_dict (Json.obj [("iterations", Json.obj [("a.spz2bp",
      Json.obj [("name", Json.str "a"), ("path", Json.str "a.spz2bp"),
        ("iteration", Json.int 3)])])]) = .ok it → IntIterations it := by
    intro it hit
    have h0 : IterationDyn.from_dict (Json.obj [("iterations", Json.obj [("a.spz2bp",
        Json.obj [("name", Json.str "a"), ("path", Json.str "a.spz2bp"),
          ("iteration", Json.int 3)])])])
        = .ok (⟨[("a.spz2bp", ⟨Json.str "a", Json.str "a.spz2bp", Json.int 3⟩)]⟩ :
          IterationDyn) := rfl
    rw [h0] at hit
    injection hit with h1
    subst h1
    intro p hp
    simp only [List.mem_singleton] at hp
    subst hp
    rfl
  rw [version_file_tracks_confirmations_amended false "M  a.spz2bp"
      (Json.obj [("iterations", Json.obj [("a.spz2bp", Json.obj
        [("name", Json.str "a"), ("path", Json.str "a.spz2bp"), ("iteration", Json.int 3)])])])
      7 ⟨fun _ => some "", fun _ => some true⟩ hpayload]
  rfl
